import Mathlib

/-!
Verification of the hoot local record store (`src/db.rs`).

A shallow embedding of the SQLite-backed store in `src/db.rs`: each table is a
list of rows, each `Db` method a pure function on the table state.  SQL
`INSERT OR IGNORE` / `INSERT OR REPLACE` are modelled with respect to the
tables' unique keys.  The migration files defining the schema are not part of
`src/`; the keys are modelled from the spec (§3, §4.4): `events` keyed by `id`,
`deleted_events` and `trash_events` keyed by the target event id ("state
machine per target id"), `gift_wrap_map` keyed by `wrap_id`, and
`profile_metadata` keyed by `pubkey` ("upsert profile fields keyed by
author").  The `events` table stores `(id, raw)` with the record fields
(`pubkey`, `created_at`, `kind`, `tags`, `content`) available to queries;
a stored row is modelled with those fields explicit.
-/

namespace Hoot

/-- A row of the `events` table: the record id together with the fields of the
raw record JSON that the queries in `db.rs` read back out of the row
(`e.pubkey`, `e.created_at`, `e.kind`, `json_each(e.tags)`, `e.content`). -/
structure StoredEvent where
  id : String
  pubkey : String
  created_at : Nat
  kind : Nat
  tags : List (List String)
  content : String
deriving DecidableEq

/-- A row of the `deleted_events` table. -/
structure DeletionMarker where
  event_id : String
  author_pubkey : Option String
  source_event_id : Option String
deriving DecidableEq

/-- A row of the `trash_events` table. -/
structure TrashEntry where
  event_id : String
  purge_after : Int
deriving DecidableEq

/-- A row of the `gift_wrap_map` table. -/
structure GiftWrapRow where
  wrap_id : String
  inner_id : String
  recipient_pubkey : Option String
  created_at : Int
deriving DecidableEq

/-- A row of the `profile_metadata` table
(`pubkey, id, name, display_name, picture, created_at`). -/
structure ProfileRow where
  pubkey : String
  id : String
  name : Option String
  display_name : Option String
  picture : Option String
  created_at : Nat
deriving DecidableEq

/-- The state of the store: the five tables of the schema that
`src/db.rs`'s event, deletion, trash, gift-wrap and profile operations touch. -/
structure Db where
  events : List StoredEvent
  deleted_events : List DeletionMarker
  trash_events : List TrashEntry
  gift_wrap_map : List GiftWrapRow
  profile_metadata : List ProfileRow
deriving DecidableEq

/-- The empty store (a freshly migrated database). -/
def Db.empty : Db := ⟨[], [], [], [], []⟩

/-- A verified inbound record (`nostr::Event`). -/
structure Event where
  id : String
  pubkey : String
  created_at : Nat
  kind : Nat
  tags : List (List String)
  content : String
  sig : String
deriving DecidableEq

/-- The unsigned inner record recovered from a gift wrap
(`nostr::UnsignedEvent`): its `id` is optional until `ensure_id` computes it. -/
structure Rumor where
  id : Option String
  pubkey : String
  created_at : Nat
  kind : Nat
  tags : List (List String)
  content : String
deriving DecidableEq

/-- The result of unwrapping a gift wrap (`nostr::nips::nip59::UnwrappedGift`):
the seal's signer together with the recovered rumor. -/
structure UnwrappedGift where
  sender : String
  rumor : Rumor
deriving DecidableEq

/-- Content address of an unsigned record.  In the source this is the SHA-256
hash of the canonical JSON encoding of
`[0, pubkey, created_at, kind, tags, content]`, computed by the external
`nostr` crate (`ensure_id`); the hash function is not part of this repository,
so the address is modelled as the canonical encoding itself, which is likewise
determined by (and injective in) the fields. -/
def computeId (pubkey : String) (created_at : Nat) (kind : Nat)
    (tags : List (List String)) (content : String) : String :=
  "[0," ++ pubkey ++ "," ++ toString created_at ++ "," ++ toString kind ++ ","
    ++ String.intercalate ";" (tags.map (String.intercalate ","))
    ++ "," ++ content ++ "]"

/-- `UnsignedEvent::ensure_id`: compute and fill in the content address if it
is not already present. -/
def Rumor.ensureId (r : Rumor) : Rumor :=
  match r.id with
  | some _ => r
  | none =>
    { r with id := some (computeId r.pubkey r.created_at r.kind r.tags r.content) }

/-- The id of a rumor after `ensure_id`: always present, so the source's
`.expect("Invalid Gift Wrapped Event: There is no ID!")` cannot fail. -/
def Rumor.ensuredId (r : Rumor) : String :=
  match r.id with
  | some i => i
  | none => computeId r.pubkey r.created_at r.kind r.tags r.content

/-- The `events` row written for a plain event: `INSERT INTO events (id, raw)`
with the record fields of the raw JSON. -/
def rowOfEvent (e : Event) : StoredEvent :=
  ⟨e.id, e.pubkey, e.created_at, e.kind, e.tags, e.content⟩

/-- The `events` row written for an unwrapped rumor (the rumor's recomputed id
with the rumor's raw JSON). -/
def rowOfRumor (r : Rumor) : StoredEvent :=
  ⟨r.ensuredId, r.pubkey, r.created_at, r.kind, r.tags, r.content⟩

/-- `INSERT OR IGNORE INTO events (id, raw)`: `id` is the primary key, so a
row whose id is already present is ignored. -/
def insertEventOrIgnore (db : Db) (row : StoredEvent) : Db :=
  if db.events.any (fun e => e.id == row.id) then db
  else { db with events := db.events ++ [row] }

/-- `INSERT OR IGNORE INTO deleted_events`: keyed by `event_id`. -/
def insertMarkerOrIgnore (ms : List DeletionMarker) (m : DeletionMarker) :
    List DeletionMarker :=
  if ms.any (fun x => x.event_id == m.event_id) then ms else ms ++ [m]

/-- `INSERT OR REPLACE INTO deleted_events`: keyed by `event_id`. -/
def insertMarkerOrReplace (ms : List DeletionMarker) (m : DeletionMarker) :
    List DeletionMarker :=
  (ms.filter (fun x => !(x.event_id == m.event_id))) ++ [m]

/-- `INSERT OR REPLACE INTO trash_events`: keyed by `event_id`. -/
def insertTrashOrReplace (ts : List TrashEntry) (t : TrashEntry) :
    List TrashEntry :=
  (ts.filter (fun x => !(x.event_id == t.event_id))) ++ [t]

/-- `Db::is_deleted`: with an author, counts markers for the id whose
`author_pubkey IS NULL OR author_pubkey = ?2`; without, any marker for the id. -/
def Db.is_deleted (db : Db) (event_id : String) (author_pubkey : Option String) :
    Bool :=
  match author_pubkey with
  | some pk =>
    db.deleted_events.any (fun m =>
      m.event_id == event_id &&
        (m.author_pubkey == none || m.author_pubkey == some pk))
  | none => db.deleted_events.any (fun m => m.event_id == event_id)

/-- `Db::is_trashed`: any `trash_events` row for the id. -/
def Db.is_trashed (db : Db) (event_id : String) : Bool :=
  db.trash_events.any (fun t => t.event_id == event_id)

/-- `Db::has_event`: any `events` row with the id. -/
def Db.has_event (db : Db) (event_id : String) : Bool :=
  db.events.any (fun e => e.id == event_id)

/-- `Db::save_gift_wrap_map`: `INSERT OR IGNORE INTO gift_wrap_map`, keyed by
`wrap_id`. -/
def Db.save_gift_wrap_map (db : Db) (wrap_id inner_id : String)
    (recipient_pubkey : Option String) (created_at : Int) : Db :=
  if db.gift_wrap_map.any (fun g => g.wrap_id == wrap_id) then db
  else
    { db with
      gift_wrap_map :=
        db.gift_wrap_map ++ [⟨wrap_id, inner_id, recipient_pubkey, created_at⟩] }

/-- `Db::store_event`.  For an unwrapped gift the rumor's id is recomputed
(`ensure_id`), the seal signer must equal the rumor's author
(`anyhow::bail!` otherwise, before anything is written), a deletion marker for
the id (null-author or matching the rumor's author) suppresses the write
entirely, and otherwise the rumor row is inserted (`OR IGNORE`) and the
gift-wrap breadcrumb saved.  For a plain event the same deletion check guards
an `INSERT OR IGNORE` of the event row. -/
def Db.store_event (db : Db) (event : Event) (unwrapped : Option UnwrappedGift)
    (gift_wrap_recipient : Option String) : Except String Db :=
  match unwrapped with
  | some u =>
    let rumor := u.rumor.ensureId
    if u.sender != rumor.pubkey then
      .error "Seal signer does not match rumor pubkey"
    else
      let id := rumor.ensuredId
      let author_pubkey := rumor.pubkey
      if db.is_deleted id (some author_pubkey) then .ok db
      else
        let db1 := insertEventOrIgnore db (rowOfRumor rumor)
        .ok (db1.save_gift_wrap_map event.id id gift_wrap_recipient
          (Int.ofNat event.created_at))
  | none =>
    let id := event.id
    let author_pubkey := event.pubkey
    if db.is_deleted id (some author_pubkey) then .ok db
    else .ok (insertEventOrIgnore db (rowOfEvent event))

/-- The author filter of `record_deletions`' SQL: `AND pubkey = ?` is appended
only when an author pubkey is supplied. -/
def authorMatchesRow (author_pubkey : Option String) (e : StoredEvent) : Bool :=
  match author_pubkey with
  | some pk => e.pubkey == pk
  | none => true

/-- The same filter on a `profile_metadata` row. -/
def authorMatchesProfile (author_pubkey : Option String) (p : ProfileRow) : Bool :=
  match author_pubkey with
  | some pk => p.pubkey == pk
  | none => true

/-- The candidate-selection step of `Db::record_deletions`:
`SELECT id FROM events WHERE id IN (targets) [AND pubkey = author]`. -/
def Db.deletableIds (db : Db) (event_ids : List String)
    (author_pubkey : Option String) : List String :=
  (db.events.filter (fun e =>
    event_ids.contains e.id && authorMatchesRow author_pubkey e)).map
    (fun e => e.id)

/-- `Db::record_deletions`: select the targets actually present in `events`
(and, when an author is supplied, stored with that author); delete those rows
from `events` and `profile_metadata` (again author-scoped when an author is
supplied); then insert a deletion marker per deletable id — `OR IGNORE` with
the request's author, `OR REPLACE` with a `NULL` author.  All inside one
transaction. -/
def Db.record_deletions (db : Db) (event_ids : List String)
    (author_pubkey : Option String) (source_event_id : Option String) : Db :=
  let deletable := db.deletableIds event_ids author_pubkey
  let events' := db.events.filter (fun e =>
    !(deletable.contains e.id && authorMatchesRow author_pubkey e))
  let pmeta' := db.profile_metadata.filter (fun p =>
    !(deletable.contains p.id && authorMatchesProfile author_pubkey p))
  let deleted' :=
    match author_pubkey with
    | some author =>
      deletable.foldl
        (fun ms i => insertMarkerOrIgnore ms ⟨i, some author, source_event_id⟩)
        db.deleted_events
    | none =>
      deletable.foldl
        (fun ms i => insertMarkerOrReplace ms ⟨i, none, source_event_id⟩)
        db.deleted_events
  { db with events := events', profile_metadata := pmeta', deleted_events := deleted' }

/-- `Db::record_trash`: `INSERT OR REPLACE INTO trash_events` for each id. -/
def Db.record_trash (db : Db) (event_ids : List String) (purge_after : Int) : Db :=
  { db with
    trash_events :=
      event_ids.foldl (fun ts i => insertTrashOrReplace ts ⟨i, purge_after⟩)
        db.trash_events }

/-- `Db::purge_expired_trash`: collect the trash entries with
`purge_after <= now`; for each, `INSERT OR IGNORE` a `NULL`-author deletion
marker, then delete the `events`, `profile_metadata` and `trash_events` rows
for those ids.  Returns the purged ids alongside the new state. -/
def Db.purge_expired_trash (db : Db) (now : Int) : Db × List String :=
  let event_ids :=
    (db.trash_events.filter (fun t => t.purge_after ≤ now)).map
      (fun t => t.event_id)
  let deleted' :=
    event_ids.foldl (fun ms i => insertMarkerOrIgnore ms ⟨i, none, none⟩)
      db.deleted_events
  let events' := db.events.filter (fun e => !event_ids.contains e.id)
  let pmeta' := db.profile_metadata.filter (fun p => !event_ids.contains p.id)
  let trash' := db.trash_events.filter (fun t => !event_ids.contains t.event_id)
  ({ db with
      events := events', profile_metadata := pmeta',
      deleted_events := deleted', trash_events := trash' },
    event_ids)

/-- `Db::restore_from_trash`: drop the trash entry for the id. -/
def Db.restore_from_trash (db : Db) (event_id : String) : Db :=
  { db with
    trash_events := db.trash_events.filter (fun t => !(t.event_id == event_id)) }

/-- `Db::delete_from_trash`: drop the trash entries for the given ids. -/
def Db.delete_from_trash (db : Db) (event_ids : List String) : Db :=
  { db with
    trash_events :=
      db.trash_events.filter (fun t => !event_ids.contains t.event_id) }

/-- `Db::record_deletion_markers`: `INSERT OR IGNORE` `NULL`-author markers
without requiring the ids to exist in `events` (used for gift wrap ids). -/
def Db.record_deletion_markers (db : Db) (event_ids : List String)
    (source_event_id : Option String) : Db :=
  { db with
    deleted_events :=
      event_ids.foldl
        (fun ms i => insertMarkerOrIgnore ms ⟨i, none, source_event_id⟩)
        db.deleted_events }

/-- `Db::get_wrap_ids_for_inner`: the wrap ids mapped to an inner id. -/
def Db.get_wrap_ids_for_inner (db : Db) (inner_id : String) : List String :=
  (db.gift_wrap_map.filter (fun g => g.inner_id == inner_id)).map
    (fun g => g.wrap_id)

/-! ## Profile metadata -/

/-- The profile fields parsed out of a metadata event's content
(`nostr::Metadata`). -/
structure Metadata where
  name : Option String
  display_name : Option String
  picture : Option String
deriving DecidableEq

/-- `nostr::Metadata::from_json` lives in the external `nostr` crate, not in
this repository; the parse is modelled as a total stand-in that carries the
content string into the `name` field (the claims under verification never
depend on the parsed field values, only on whether the row changes). -/
def metadataFromJson (content : String) : Except String Metadata :=
  .ok ⟨some content, none, none⟩

/-- rusqlite's `Connection::execute`: prepares and steps the statement once;
if stepping yields a row (`SQLITE_ROW`) it fails with
`ExecuteReturnedResults` instead of returning the change count. -/
def connectionExecute (rowsReturned : Nat) (changes : Nat) : Except String Nat :=
  if rowsReturned > 0 then
    .error "Execute returned results - did you mean to call query?"
  else .ok changes

/-- `Db::pmeta_is_newer`: runs
`SELECT EXISTS (SELECT 1 FROM profile_metadata WHERE pubkey = $1 AND created_at <= $2) AS wow`
through `Connection::execute`.  The `SELECT EXISTS` always yields exactly one
row (holding the `wow` bit, which the source never reads), so the `execute`
call fails with `ExecuteReturnedResults`; the `Ok(true)` fallthrough of the
source is unreachable. -/
def Db.pmeta_is_newer (db : Db) (pubkey : String) (created_at : Nat) :
    Except String Bool :=
  let _wow := db.profile_metadata.any (fun p =>
    p.pubkey == pubkey && p.created_at ≤ created_at)
  match connectionExecute 1 0 with
  | .error e => .error e
  | .ok _ => .ok true

/-- `REPLACE INTO profile_metadata`: keyed by `pubkey`. -/
def replaceProfile (ps : List ProfileRow) (p : ProfileRow) : List ProfileRow :=
  (ps.filter (fun x => !(x.pubkey == p.pubkey))) ++ [p]

/-- `Db::write_profile_metadata`: rejects non-kind-0 events, parses the
content into profile fields and `REPLACE`s the row for the author. -/
def Db.write_profile_metadata (db : Db) (event : Event) : Except String Db :=
  if event.kind != 0 then .error "Event provided is not a kind 0 event."
  else
    match metadataFromJson event.content with
    | .error e => .error e
    | .ok meta =>
      .ok { db with
        profile_metadata :=
          replaceProfile db.profile_metadata
            ⟨event.pubkey, event.id, meta.name, meta.display_name,
              meta.picture, event.created_at⟩ }

/-- `Db::update_profile_metadata`: write the profile row only when
`pmeta_is_newer` says the event is newer; the `?` on `pmeta_is_newer`
propagates its error. -/
def Db.update_profile_metadata (db : Db) (event : Event) : Except String Db :=
  match db.pmeta_is_newer event.pubkey event.created_at with
  | .error e => .error e
  | .ok true => db.write_profile_metadata event
  | .ok false => .ok db

/-! ## Queries

The `NOT EXISTS` visibility filters shared by the listing and thread queries:
a row is suppressed when a deletion marker for its id has a `NULL` author or
an author equal to the row's `pubkey`, or (where the query filters trash)
when a trash entry for its id exists. -/

/-- The `NOT EXISTS (SELECT 1 FROM deleted_events d WHERE d.event_id = e.id
AND (d.author_pubkey IS NULL OR d.author_pubkey = e.pubkey))` filter. -/
def rowDeleted (db : Db) (e : StoredEvent) : Bool :=
  db.deleted_events.any (fun m =>
    m.event_id == e.id && (m.author_pubkey == none || m.author_pubkey == some e.pubkey))

/-- A tag ["e", target, ...]: `json_extract(value, '$[0]') = 'e'` with
`json_extract(value, '$[1]')` equal to the target (a tag with fewer than two
elements extracts SQL `NULL`, which compares unequal to everything). -/
def eTagTarget (tag : List String) : Option String :=
  match tag with
  | t0 :: t1 :: _ => if t0 == "e" then some t1 else none
  | _ => none

/-- The e-tag targets of a stored event's tag list. -/
def eTagTargets (e : StoredEvent) : List String :=
  e.tags.filterMap eTagTarget

/-- Whether a tag list carries a `subject` tag
(`json_extract(value, '$[0]') = 'subject'`). -/
def hasSubjectTag (e : StoredEvent) : Bool :=
  e.tags.any (fun tag =>
    match tag with
    | t0 :: _ => t0 == "subject"
    | _ => false)

/-- One round of the recursive `thread` CTE of `get_email_thread_inner`,
on the set of member ids: add every visible event carrying an e-tag pointing
at a member (the replies branch), and every visible event whose id is an
e-tag target of a member (the parents branch). -/
def threadStepIds (db : Db) (excludeTrash : Bool) (cur : List String) :
    List String :=
  let visible := fun (e : StoredEvent) =>
    !rowDeleted db e && (!excludeTrash || !db.is_trashed e.id)
  let members := db.events.filter (fun e => cur.contains e.id)
  let replies := db.events.filter (fun e =>
    visible e && (eTagTargets e).any (fun t => cur.contains t))
  let parentTargets := members.flatMap eTagTargets
  let parents := db.events.filter (fun e =>
    visible e && parentTargets.contains e.id)
  ((replies ++ parents).map (fun e => e.id)).foldl
    (fun acc i => if acc.contains i then acc else acc ++ [i]) cur

/-- Iterate the CTE round `fuel` times (the CTE itself runs to a fixed point;
each productive round adds at least one of the finitely many stored ids, so
`db.events.length` rounds reach the fixed point). -/
def threadClosureIter (db : Db) (excludeTrash : Bool) :
    Nat → List String → List String
  | 0, cur => cur
  | n + 1, cur => threadClosureIter db excludeTrash n (threadStepIds db excludeTrash cur)

/-- The member ids of the `thread` CTE started at `event_id`: the seed is the
event with that id when it is visible, then the replies/parents rounds run to
a fixed point. -/
def threadClosure (db : Db) (excludeTrash : Bool) (event_id : String) :
    List String :=
  let visible := fun (e : StoredEvent) =>
    !rowDeleted db e && (!excludeTrash || !db.is_trashed e.id)
  let seed := (db.events.filter (fun e => e.id == event_id && visible e)).map
    (fun e => e.id)
  threadClosureIter db excludeTrash db.events.length seed

/-- `ORDER BY json_extract(raw, '$.created_at') ASC`. -/
def byCreatedAt (a b : StoredEvent) : Prop := a.created_at ≤ b.created_at

instance : DecidableRel byCreatedAt := fun a b =>
  inferInstanceAs (Decidable (a.created_at ≤ b.created_at))

instance : IsTotal StoredEvent byCreatedAt :=
  ⟨fun a b => Nat.le_total a.created_at b.created_at⟩

instance : IsTrans StoredEvent byCreatedAt :=
  ⟨fun _ _ _ h1 h2 => Nat.le_trans h1 h2⟩

/-- `Db::get_email_thread_inner`: the distinct rows of the `thread` CTE,
ordered by `created_at` ascending. -/
def Db.get_email_thread_inner (db : Db) (event_id : String)
    (exclude_trash : Bool) : List StoredEvent :=
  List.insertionSort byCreatedAt
    (db.events.filter (fun e => (threadClosure db exclude_trash event_id).contains e.id))

/-- `Db::get_email_thread`: the thread query with trash excluded. -/
def Db.get_email_thread (db : Db) (event_id : String) : List StoredEvent :=
  db.get_email_thread_inner event_id true

/-- `Db::get_email_thread_including_trash`. -/
def Db.get_email_thread_including_trash (db : Db) (event_id : String) :
    List StoredEvent :=
  db.get_email_thread_inner event_id false

/-- The `roots` CTE of `Db::get_top_level_messages`: events carrying a
`subject` tag, themselves neither deleted nor trashed, with no e-tag pointing
at an id present in the `events` table. -/
def isRoot (db : Db) (e : StoredEvent) : Bool :=
  hasSubjectTag e && !rowDeleted db e && !db.is_trashed e.id &&
    !(eTagTargets e).any (fun t => db.events.any (fun p => p.id == t))

/-- The ids of the top-level listing produced by
`Db::get_top_level_messages` (one row per root). -/
def Db.topLevelIds (db : Db) : List String :=
  (db.events.filter (fun e => isRoot db e)).map (fun e => e.id)

/-! ## Deletion-request application

`src/main.rs` in this snapshot predates `src/db.rs`'s API (it calls a
two-argument `store_event` and contains no deletion-request, trash or purge
handler), so the orchestration that applies a deletion request is not under
`src/`. -/

/-- Modelled from the spec: the missing deletion-request handler.  §4.4:
"Deleting a target must also: remove any TrashEntry for the same id (deletion
supersedes trashing); find all GiftWrapMapping entries whose `inner_id`
equals the target and record deletion markers for their `wrap_id`s too".
It runs `Db::record_deletions` on the targets, then `Db::delete_from_trash`
and the gift-wrap marker cascade (`Db::get_wrap_ids_for_inner` +
`Db::record_deletion_markers`) on the ids that request actually deleted. -/
def Db.apply_deletion (db : Db) (event_ids : List String)
    (author_pubkey : Option String) (source_event_id : Option String) : Db :=
  let deletable := db.deletableIds event_ids author_pubkey
  let db1 := db.record_deletions event_ids author_pubkey source_event_id
  let db2 := db1.delete_from_trash deletable
  let wraps := deletable.flatMap (fun i => db.get_wrap_ids_for_inner i)
  db2.record_deletion_markers wraps source_event_id

/-! ## Helper lemmas -/

theorem Rumor.ensureId_pubkey (r : Rumor) : r.ensureId.pubkey = r.pubkey := by
  unfold Rumor.ensureId
  rcases r with ⟨i, pk, ca, k, tg, ct⟩
  cases i <;> rfl

theorem Rumor.ensureId_ensuredId (r : Rumor) :
    r.ensureId.ensuredId = r.ensuredId := by
  unfold Rumor.ensureId Rumor.ensuredId
  rcases r with ⟨i, pk, ca, k, tg, ct⟩
  cases i <;> rfl

theorem is_deleted_of_marker (db : Db) (x pk : String) (m : DeletionMarker)
    (hm : m ∈ db.deleted_events) (hid : m.event_id = x)
    (ha : m.author_pubkey = none ∨ m.author_pubkey = some pk) :
    db.is_deleted x (some pk) = true := by
  unfold Db.is_deleted
  rw [List.any_eq_true]
  refine ⟨m, hm, ?_⟩
  rcases ha with h | h <;> simp [hid, h]

theorem insertEventOrIgnore_idem (db : Db) (row : StoredEvent) :
    insertEventOrIgnore (insertEventOrIgnore db row) row =
      insertEventOrIgnore db row := by
  unfold insertEventOrIgnore
  by_cases h : db.events.any (fun e => e.id == row.id) = true
  · simp [h]
  · simp [h, List.any_append]

theorem insertEventOrIgnore_deleted_events (db : Db) (row : StoredEvent) :
    (insertEventOrIgnore db row).deleted_events = db.deleted_events := by
  unfold insertEventOrIgnore
  split <;> rfl

theorem is_deleted_insertEventOrIgnore (db : Db) (row : StoredEvent)
    (x : String) (a : Option String) :
    (insertEventOrIgnore db row).is_deleted x a = db.is_deleted x a := by
  cases a <;>
    (unfold Db.is_deleted; rw [insertEventOrIgnore_deleted_events])

theorem mem_insertMarkerOrIgnore (ms : List DeletionMarker)
    (m0 m : DeletionMarker) (h : m ∈ insertMarkerOrIgnore ms m0) :
    m ∈ ms ∨ m = m0 := by
  unfold insertMarkerOrIgnore at h
  split at h
  · exact Or.inl h
  · rcases List.mem_append.mp h with h1 | h1
    · exact Or.inl h1
    · exact Or.inr (List.mem_singleton.mp h1)

theorem subset_insertMarkerOrIgnore (ms : List DeletionMarker)
    (m0 m : DeletionMarker) (hm : m ∈ ms) : m ∈ insertMarkerOrIgnore ms m0 := by
  unfold insertMarkerOrIgnore
  split
  · exact hm
  · exact List.mem_append_left _ hm

theorem exists_eventId_insertMarkerOrIgnore (ms : List DeletionMarker)
    (m0 : DeletionMarker) :
    ∃ m ∈ insertMarkerOrIgnore ms m0, m.event_id = m0.event_id := by
  unfold insertMarkerOrIgnore
  split
  · next h =>
    obtain ⟨m, hm, he⟩ := List.any_eq_true.mp h
    exact ⟨m, hm, by simpa using he⟩
  · exact ⟨m0, List.mem_append_right _ (List.mem_singleton.mpr rfl), rfl⟩

theorem mem_foldl_insertMarkerOrIgnore (f : String → DeletionMarker) :
    ∀ (ids : List String) (ms : List DeletionMarker) (m : DeletionMarker),
      m ∈ ids.foldl (fun acc i => insertMarkerOrIgnore acc (f i)) ms →
      m ∈ ms ∨ ∃ i ∈ ids, m = f i
  | [], _, _, h => Or.inl h
  | j :: ids, ms, m, h => by
    rcases mem_foldl_insertMarkerOrIgnore f ids _ m h with h1 | ⟨i, hi, rfl⟩
    · rcases mem_insertMarkerOrIgnore ms (f j) m h1 with h2 | rfl
      · exact Or.inl h2
      · exact Or.inr ⟨j, List.mem_cons_self j ids, rfl⟩
    · exact Or.inr ⟨i, List.mem_cons_of_mem j hi, rfl⟩

theorem subset_foldl_insertMarkerOrIgnore (f : String → DeletionMarker) :
    ∀ (ids : List String) (ms : List DeletionMarker) (m : DeletionMarker),
      m ∈ ms → m ∈ ids.foldl (fun acc i => insertMarkerOrIgnore acc (f i)) ms
  | [], _, _, h => h
  | j :: ids, ms, m, h =>
    subset_foldl_insertMarkerOrIgnore f ids _ m
      (subset_insertMarkerOrIgnore ms (f j) m h)

theorem exists_eventId_foldl_insertMarkerOrIgnore (f : String → DeletionMarker) :
    ∀ (ids : List String) (ms : List DeletionMarker) (i : String), i ∈ ids →
      ∃ m ∈ ids.foldl (fun acc i => insertMarkerOrIgnore acc (f i)) ms,
        m.event_id = (f i).event_id
  | [], _, i, h => absurd h (List.not_mem_nil i)
  | j :: ids, ms, i, h => by
    rcases List.mem_cons.mp h with rfl | hi
    · obtain ⟨m, hm, he⟩ := exists_eventId_insertMarkerOrIgnore ms (f i)
      exact ⟨m, subset_foldl_insertMarkerOrIgnore f ids _ m hm, he⟩
    · exact exists_eventId_foldl_insertMarkerOrIgnore f ids _ i hi

theorem mem_insertMarkerOrReplace (ms : List DeletionMarker)
    (m0 m : DeletionMarker) (h : m ∈ insertMarkerOrReplace ms m0) :
    m ∈ ms ∨ m = m0 := by
  unfold insertMarkerOrReplace at h
  rcases List.mem_append.mp h with h1 | h1
  · exact Or.inl (List.mem_filter.mp h1).1
  · exact Or.inr (List.mem_singleton.mp h1)

theorem mem_foldl_insertMarkerOrReplace (f : String → DeletionMarker) :
    ∀ (ids : List String) (ms : List DeletionMarker) (m : DeletionMarker),
      m ∈ ids.foldl (fun acc i => insertMarkerOrReplace acc (f i)) ms →
      m ∈ ms ∨ ∃ i ∈ ids, m = f i
  | [], _, _, h => Or.inl h
  | j :: ids, ms, m, h => by
    rcases mem_foldl_insertMarkerOrReplace f ids _ m h with h1 | ⟨i, hi, rfl⟩
    · rcases mem_insertMarkerOrReplace ms (f j) m h1 with h2 | rfl
      · exact Or.inl h2
      · exact Or.inr ⟨j, List.mem_cons_self j ids, rfl⟩
    · exact Or.inr ⟨i, List.mem_cons_of_mem j hi, rfl⟩

/-- Every id selected by `deletableIds` is the id of some stored event row
that passed the target and author filters. -/
theorem mem_deletableIds (db : Db) (event_ids : List String)
    (author : Option String) (i : String)
    (h : i ∈ db.deletableIds event_ids author) :
    ∃ f ∈ db.events, f.id = i ∧ i ∈ event_ids ∧
      authorMatchesRow author f = true := by
  unfold Db.deletableIds at h
  obtain ⟨f, hf, rfl⟩ := List.mem_map.mp h
  obtain ⟨hfe, hp⟩ := List.mem_filter.mp hf
  have := List.mem_of_elem_eq_true (Bool.and_elim_left hp)
  exact ⟨f, hfe, rfl, this, Bool.and_elim_right hp⟩

/-- A stored row whose id is targeted and whose author passes the filter
contributes its id to `deletableIds`. -/
theorem id_mem_deletableIds (db : Db) (event_ids : List String)
    (author : Option String) (f : StoredEvent) (hf : f ∈ db.events)
    (ht : f.id ∈ event_ids) (ha : authorMatchesRow author f = true) :
    f.id ∈ db.deletableIds event_ids author := by
  unfold Db.deletableIds
  exact List.mem_map.mpr
    ⟨f, List.mem_filter.mpr ⟨hf, by simp [ht, ha]⟩, rfl⟩

theorem record_deletions_events (db : Db) (event_ids : List String)
    (author : Option String) (src : Option String) :
    (db.record_deletions event_ids author src).events =
      db.events.filter (fun e =>
        !((db.deletableIds event_ids author).contains e.id &&
          authorMatchesRow author e)) := rfl

theorem record_deletions_pmeta (db : Db) (event_ids : List String)
    (author : Option String) (src : Option String) :
    (db.record_deletions event_ids author src).profile_metadata =
      db.profile_metadata.filter (fun p =>
        !((db.deletableIds event_ids author).contains p.id &&
          authorMatchesProfile author p)) := rfl

theorem record_deletions_deleted_some (db : Db) (event_ids : List String)
    (A : String) (src : Option String) :
    (db.record_deletions event_ids (some A) src).deleted_events =
      (db.deletableIds event_ids (some A)).foldl
        (fun ms i => insertMarkerOrIgnore ms ⟨i, some A, src⟩)
        db.deleted_events := rfl

theorem record_deletions_deleted_none (db : Db) (event_ids : List String)
    (src : Option String) :
    (db.record_deletions event_ids none src).deleted_events =
      (db.deletableIds event_ids none).foldl
        (fun ms i => insertMarkerOrReplace ms ⟨i, none, src⟩)
        db.deleted_events := rfl

/-! ## Claims -/

/-- C1: a gift-wrapped event whose seal-derived sender differs from the
recovered rumor's stated author pubkey is rejected by `Db::store_event` with
an error, and nothing is written: the `bail!` fires before the `events`
insert and before the `GiftWrapMapping` breadcrumb is saved, so no successor
state exists at all. -/
theorem c1_seal_signer_mismatch_rejected (db : Db) (event : Event)
    (u : UnwrappedGift) (recipient : Option String)
    (h : u.sender ≠ u.rumor.pubkey) :
    db.store_event event (some u) recipient =
      .error "Seal signer does not match rumor pubkey" := by
  unfold Db.store_event
  simp [Rumor.ensureId_pubkey, h]

/-- Witness for C1: a concrete wrap whose seal signer is `mallory` while the
rumor claims author `alice`. -/
theorem c1_seal_signer_mismatch_rejected_witness :
    Db.empty.store_event ⟨"w1", "rand", 9, 1059, [], "ct", "sig"⟩
      (some ⟨"mallory", ⟨none, "alice", 5, 14, [], "hi"⟩⟩) none =
      .error "Seal signer does not match rumor pubkey" :=
  c1_seal_signer_mismatch_rejected Db.empty
    ⟨"w1", "rand", 9, 1059, [], "ct", "sig"⟩
    ⟨"mallory", ⟨none, "alice", 5, 14, [], "hi"⟩⟩ none (by decide)

/-- C4: in every state holding a deletion marker for id `X` with a null
author or an author equal to the delivered record's author,
`Db::store_event` returns the state unchanged — the record is never
re-inserted — on the plain path and on the unwrapped-rumor path alike. -/
theorem c4_deletion_marker_blocks_reinsertion (db : Db) :
    (∀ event : Event,
      (∃ m ∈ db.deleted_events, m.event_id = event.id ∧
        (m.author_pubkey = none ∨ m.author_pubkey = some event.pubkey)) →
      db.store_event event none none = .ok db) ∧
    (∀ (event : Event) (u : UnwrappedGift) (recipient : Option String),
      u.sender = u.rumor.pubkey →
      (∃ m ∈ db.deleted_events, m.event_id = u.rumor.ensuredId ∧
        (m.author_pubkey = none ∨ m.author_pubkey = some u.rumor.pubkey)) →
      db.store_event event (some u) recipient = .ok db) := by
  constructor
  · rintro event ⟨m, hm, hid, ha⟩
    unfold Db.store_event
    simp [is_deleted_of_marker db event.id event.pubkey m hm hid ha]
  · rintro event u recipient hs ⟨m, hm, hid, ha⟩
    unfold Db.store_event
    simp [Rumor.ensureId_pubkey, Rumor.ensureId_ensuredId, hs,
      is_deleted_of_marker db u.rumor.ensuredId u.rumor.pubkey m hm hid ha]

/-- Witness for C4: a null-author marker for `"x"` blocks re-delivery of a
plain record with id `"x"`. -/
theorem c4_deletion_marker_blocks_reinsertion_witness :
    (Db.mk [] [⟨"x", none, none⟩] [] [] []).store_event
      ⟨"x", "alice", 1, 1059, [], "body", "sig"⟩ none none =
      .ok (Db.mk [] [⟨"x", none, none⟩] [] [] []) :=
  (c4_deletion_marker_blocks_reinsertion
      (Db.mk [] [⟨"x", none, none⟩] [] [] [])).1
    ⟨"x", "alice", 1, 1059, [], "body", "sig"⟩
    ⟨⟨"x", none, none⟩, by decide, rfl, Or.inl rfl⟩

/-- C3: a deletion request with author `A` never touches a stored record
whose author is `B ≠ A`: the record stays in the `events` table, no deletion
marker is recorded for its id, and the unauthorized target is merely skipped
— every authorized target of the same batch is still deleted and marked. -/
theorem c3_deletion_authorization_scoped (db : Db) (targets : List String)
    (A : String) (src : Option String) (e : StoredEvent)
    (he : e ∈ db.events) (hne : e.pubkey ≠ A)
    (huniq : ∀ f ∈ db.events, f.id = e.id → f.pubkey = e.pubkey) :
    e ∈ (db.record_deletions targets (some A) src).events ∧
      (∀ m ∈ (db.record_deletions targets (some A) src).deleted_events,
        m.event_id = e.id → m ∈ db.deleted_events) ∧
      (∀ g ∈ db.events, g.id ∈ targets → g.pubkey = A →
        g ∉ (db.record_deletions targets (some A) src).events ∧
          ∃ m ∈ (db.record_deletions targets (some A) src).deleted_events,
            m.event_id = g.id) := by
  have hdel : ∀ i ∈ db.deletableIds targets (some A), i ≠ e.id := by
    intro i hi hieq
    obtain ⟨f, hf, hfid, -, hfa⟩ := mem_deletableIds db targets (some A) i hi
    have hfA : f.pubkey = A := by simpa [authorMatchesRow] using hfa
    have hfe : f.pubkey = e.pubkey := huniq f hf (hfid.trans hieq)
    exact hne (hfe ▸ hfA)
  refine ⟨?_, ?_, ?_⟩
  · rw [record_deletions_events]
    refine List.mem_filter.mpr ⟨he, ?_⟩
    simp [authorMatchesRow, hne]
  · intro m hm hmid
    rw [record_deletions_deleted_some] at hm
    rcases mem_foldl_insertMarkerOrIgnore _ _ _ m hm with h1 | ⟨i, hi, rfl⟩
    · exact h1
    · exact absurd hmid (hdel i hi)
  · intro g hg hgt hgA
    have hgd : g.id ∈ db.deletableIds targets (some A) :=
      id_mem_deletableIds db targets (some A) g hg hgt
        (by simp [authorMatchesRow, hgA])
    refine ⟨?_, ?_⟩
    · rw [record_deletions_events]
      intro hmem
      have hpred := (List.mem_filter.mp hmem).2
      simp [authorMatchesRow, hgA] at hpred
      exact hpred hgd
    · rw [record_deletions_deleted_some]
      obtain ⟨m, hm, hmid⟩ := exists_eventId_foldl_insertMarkerOrIgnore
        (fun i => ⟨i, some A, src⟩) (db.deletableIds targets (some A))
        db.deleted_events g.id hgd
      exact ⟨m, hm, hmid⟩

/-- Witness for C3: Bob's record `"y"` survives Alice's deletion request
targeting both `"x"` (hers) and `"y"` (his); `"x"` is deleted and marked. -/
theorem c3_deletion_authorization_scoped_witness :
    (⟨"y", "bob", 2, 1059, [], "b"⟩ : StoredEvent) ∈
      ((Db.mk [⟨"x", "alice", 1, 1059, [], "a"⟩,
          ⟨"y", "bob", 2, 1059, [], "b"⟩] [] [] [] []).record_deletions
        ["x", "y"] (some "alice") (some "d5")).events ∧
      (∀ m ∈ ((Db.mk [⟨"x", "alice", 1, 1059, [], "a"⟩,
          ⟨"y", "bob", 2, 1059, [], "b"⟩] [] [] [] []).record_deletions
        ["x", "y"] (some "alice") (some "d5")).deleted_events,
        m.event_id = "y" → m ∈ ([] : List DeletionMarker)) := by
  have h := c3_deletion_authorization_scoped
    (Db.mk [⟨"x", "alice", 1, 1059, [], "a"⟩,
      ⟨"y", "bob", 2, 1059, [], "b"⟩] [] [] [] [])
    ["x", "y"] "alice" (some "d5") ⟨"y", "bob", 2, 1059, [], "b"⟩
    (by decide) (by decide) (by decide)
  exact ⟨h.1, h.2.1⟩

/-- C10: a deletion request targeting an id `x` not present in the `events`
table records no deletion marker for `x`, leaves the `profile_metadata` rows
with id `x` and the `trash_events` and `gift_wrap_map` tables unchanged, and
a record with id `x` delivered afterwards (with no marker for `x` existing)
is stored normally. -/
theorem c10_nonexistent_target_untouched (db : Db) (targets : List String)
    (author : Option String) (src : Option String) (x : String)
    (hx : ∀ e ∈ db.events, e.id ≠ x) :
    (∀ m ∈ (db.record_deletions targets author src).deleted_events,
        m.event_id = x → m ∈ db.deleted_events) ∧
      (∀ p ∈ db.profile_metadata, p.id = x →
        p ∈ (db.record_deletions targets author src).profile_metadata) ∧
      (db.record_deletions targets author src).trash_events =
        db.trash_events ∧
      (db.record_deletions targets author src).gift_wrap_map =
        db.gift_wrap_map ∧
      (∀ event : Event, event.id = x →
        (∀ m ∈ db.deleted_events, m.event_id ≠ x) →
        ∃ db2,
          (db.record_deletions targets author src).store_event event
            none none = .ok db2 ∧
          rowOfEvent event ∈ db2.events) := by
  have hxdel : ∀ i ∈ db.deletableIds targets author, i ≠ x := by
    intro i hi
    obtain ⟨f, hf, hfid, -, -⟩ := mem_deletableIds db targets author i hi
    exact hfid ▸ hx f hf
  have hmark : ∀ m ∈ (db.record_deletions targets author src).deleted_events,
      m.event_id = x → m ∈ db.deleted_events := by
    intro m hm hmid
    cases author with
    | some A =>
      rw [record_deletions_deleted_some] at hm
      rcases mem_foldl_insertMarkerOrIgnore _ _ _ m hm with h1 | ⟨i, hi, rfl⟩
      · exact h1
      · exact absurd hmid (hxdel i hi)
    | none =>
      rw [record_deletions_deleted_none] at hm
      rcases mem_foldl_insertMarkerOrReplace _ _ _ m hm with h1 | ⟨i, hi, rfl⟩
      · exact h1
      · exact absurd hmid (hxdel i hi)
  refine ⟨hmark, ?_, rfl, rfl, ?_⟩
  · intro p hp hpid
    rw [record_deletions_pmeta]
    refine List.mem_filter.mpr ⟨hp, ?_⟩
    cases hc : (db.deletableIds targets author).contains p.id with
    | true =>
      exact absurd hpid (hxdel p.id (List.mem_of_elem_eq_true hc))
    | false => simp [hc]
  · intro event hevid hnone
    have hdel2 : (db.record_deletions targets author src).is_deleted
        event.id (some event.pubkey) = false := by
      have hall : ∀ m ∈ (db.record_deletions targets author src).deleted_events,
          ¬((m.event_id == event.id &&
            (m.author_pubkey == none || m.author_pubkey == some event.pubkey))
              = true) := by
        intro m hm hpm
        have hmx : m.event_id = event.id := by
          simpa using Bool.and_elim_left hpm
        exact hnone m (hmark m hm (hmx.trans hevid)) (hmx.trans hevid)
      exact List.any_eq_false.mpr hall
    refine ⟨insertEventOrIgnore (db.record_deletions targets author src)
      (rowOfEvent event), ?_, ?_⟩
    · unfold Db.store_event
      simp [hdel2]
    · have hany : ((db.record_deletions targets author src).events.any
          (fun e => e.id == (rowOfEvent event).id)) = false := by
        rw [List.any_eq_false]
        intro g hg
        rw [record_deletions_events] at hg
        have hge := (List.mem_filter.mp hg).1
        simp [rowOfEvent, hevid, hx g hge]
      unfold insertEventOrIgnore
      rw [hany]
      simp

/-- Witness for C10: a deletion request for the absent id `"z"` changes
nothing for `"z"`, and a later record with id `"z"` is stored. -/
theorem c10_nonexistent_target_untouched_witness :
    ∃ db2,
      ((Db.mk [⟨"w", "carol", 3, 1059, [], "w"⟩] [] [] [] []).record_deletions
          ["z"] none (some "d9")).store_event
        ⟨"z", "dave", 4, 1059, [], "zz", "s"⟩ none none = .ok db2 ∧
      rowOfEvent ⟨"z", "dave", 4, 1059, [], "zz", "s"⟩ ∈ db2.events :=
  (c10_nonexistent_target_untouched
      (Db.mk [⟨"w", "carol", 3, 1059, [], "w"⟩] [] [] [] [])
      ["z"] none (some "d9") "z" (by decide)).2.2.2.2
    ⟨"z", "dave", 4, 1059, [], "zz", "s"⟩ rfl (by decide)

/-- C9: storing the same plain record twice in succession yields the same
store state as storing it once — the second `Db::store_event` succeeds and
changes nothing (`INSERT OR IGNORE` on the duplicate id). -/
theorem c9_plain_store_idempotent (db : Db) (event : Event) :
    (db.store_event event none none).bind
      (fun db2 => db2.store_event event none none) =
      db.store_event event none none := by
  unfold Db.store_event
  by_cases h : db.is_deleted event.id (some event.pubkey) = true
  · simp [h, Except.bind]
  · simp [h, Except.bind, is_deleted_insertEventOrIgnore,
      insertEventOrIgnore_idem]

/-- C5: the stored profile row can never be updated by
`Db::update_profile_metadata`: `pmeta_is_newer` runs the row-returning
`SELECT EXISTS` statement through `Connection::execute`, which fails with
`ExecuteReturnedResults` on any statement that yields a row, so the `?`
always propagates an error and `write_profile_metadata` is never reached —
even for an event with a strictly newer `created_at`, contradicting
`pmeta_is_newer`'s own documentation ("Returns true if `created_at` is newer
than what is saved, and false if they are the same or older"). -/
theorem c5_update_profile_metadata_always_fails (db : Db) (event : Event) :
    db.update_profile_metadata event =
      .error "Execute returned results - did you mean to call query?" := rfl

theorem purge_expired_trash_deleted_events (db : Db) (now : Int) :
    (db.purge_expired_trash now).1.deleted_events =
      ((db.trash_events.filter (fun t => t.purge_after ≤ now)).map
        (fun t => t.event_id)).foldl
        (fun ms i => insertMarkerOrIgnore ms ⟨i, none, none⟩)
        db.deleted_events := rfl

theorem purge_expired_trash_events (db : Db) (now : Int) :
    (db.purge_expired_trash now).1.events =
      db.events.filter (fun e =>
        !((db.trash_events.filter (fun t => t.purge_after ≤ now)).map
          (fun t => t.event_id)).contains e.id) := rfl

theorem purge_expired_trash_trash_events (db : Db) (now : Int) :
    (db.purge_expired_trash now).1.trash_events =
      db.trash_events.filter (fun t =>
        !((db.trash_events.filter (fun u => u.purge_after ≤ now)).map
          (fun u => u.event_id)).contains t.event_id) := rfl

/-- The state used to refute C6, reached through the store's own operations:
store `"x"` authored by `"P"`, author-delete it (which records the marker
`("x", P)` and, in the source, leaves the trash table alone), then trash
`"x"` with `purge_after = 5`. -/
def c6Db : Db :=
  match Db.empty.store_event ⟨"x", "P", 1, 1059, [["subject", "s"]], "body", "sig"⟩
      none none with
  | .ok d => (d.record_deletions ["x"] (some "P") none).record_trash ["x"] 5
  | .error _ => Db.empty

/-- C6 counterexample: in a reachable state holding a trash entry for `"x"`
with `purge_after 5 ≤ now = 10` and a pre-existing author-`"P"` deletion
marker for `"x"`, the purge sweep's `INSERT OR IGNORE` keeps the authored
marker: afterwards no deletion marker for `"x"` has a null author, contrary
to the claim that the expired entry is converted into a null-author marker. -/
theorem c6_purge_counterexample :
    (⟨"x", 5⟩ : TrashEntry) ∈ c6Db.trash_events ∧ (5 : Int) ≤ 10 ∧
      (⟨"x", some "P", none⟩ : DeletionMarker) ∈ c6Db.deleted_events ∧
      ∀ m ∈ (c6Db.purge_expired_trash 10).1.deleted_events,
        ¬(m.event_id = "x" ∧ m.author_pubkey = none) := by decide

/-- C6 (amended): a purge sweep at time `now` (over a state whose trash
entries are keyed by event id): every pre-existing deletion marker is kept;
every trash entry with `purge_after ≤ now` has its event row and its trash
entry removed and is covered by a deletion marker — inserted with a null
author when no marker for that id pre-existed (a pre-existing marker, even
an authored one, is kept as is); every trash entry with `purge_after > now`
is left untouched and its record remains stored. -/
theorem c6_purge_expired_trash_amended (db : Db) (now : Int)
    (hnodup : (db.trash_events.map (fun t => t.event_id)).Nodup) :
    (∀ m ∈ db.deleted_events,
        m ∈ (db.purge_expired_trash now).1.deleted_events) ∧
      (∀ t ∈ db.trash_events, t.purge_after ≤ now →
        ((∀ m ∈ db.deleted_events, m.event_id ≠ t.event_id) →
          (⟨t.event_id, none, none⟩ : DeletionMarker) ∈
            (db.purge_expired_trash now).1.deleted_events) ∧
          (∀ e ∈ (db.purge_expired_trash now).1.events, e.id ≠ t.event_id) ∧
          (∀ u ∈ (db.purge_expired_trash now).1.trash_events,
            u.event_id ≠ t.event_id)) ∧
      (∀ t ∈ db.trash_events, now < t.purge_after →
        t ∈ (db.purge_expired_trash now).1.trash_events ∧
          ∀ e ∈ db.events, e.id = t.event_id →
            e ∈ (db.purge_expired_trash now).1.events) := by
  refine ⟨?_, ?_, ?_⟩
  · intro m hm
    rw [purge_expired_trash_deleted_events]
    exact subset_foldl_insertMarkerOrIgnore _ _ _ m hm
  · intro t ht hexp
    have hmem : t.event_id ∈
        (db.trash_events.filter (fun u => u.purge_after ≤ now)).map
          (fun u => u.event_id) :=
      List.mem_map.mpr ⟨t, List.mem_filter.mpr ⟨ht, by simpa using hexp⟩, rfl⟩
    refine ⟨?_, ?_, ?_⟩
    · intro hno
      rw [purge_expired_trash_deleted_events]
      obtain ⟨m, hm, hmid⟩ := exists_eventId_foldl_insertMarkerOrIgnore
        (fun i => ⟨i, none, none⟩) _ db.deleted_events t.event_id hmem
      rcases mem_foldl_insertMarkerOrIgnore _ _ _ m hm with h1 | ⟨i, -, rfl⟩
      · exact absurd hmid (hno m h1)
      · have : i = t.event_id := hmid
        rw [← this]
        exact hm
    · intro e hee
      rw [purge_expired_trash_events] at hee
      have hpred := (List.mem_filter.mp hee).2
      intro heq
      rw [heq] at hpred
      simp [List.elem_eq_true_of_mem hmem] at hpred
      exact hpred t ht hexp rfl
    · intro u hu
      rw [purge_expired_trash_trash_events] at hu
      have hpred := (List.mem_filter.mp hu).2
      intro heq
      rw [heq] at hpred
      simp [List.elem_eq_true_of_mem hmem] at hpred
      exact hpred t ht hexp rfl
  · intro t ht hlate
    have hnot : t.event_id ∉
        (db.trash_events.filter (fun u => u.purge_after ≤ now)).map
          (fun u => u.event_id) := by
      intro hmem
      obtain ⟨u, hu, huid⟩ := List.mem_map.mp hmem
      have hue := (List.mem_filter.mp hu).1
      have hule : u.purge_after ≤ now := by
        simpa using (List.mem_filter.mp hu).2
      have : u = t :=
        List.inj_on_of_nodup_map hnodup hue ht huid
      rw [this] at hule
      exact absurd hlate (not_lt.mpr hule)
    refine ⟨?_, ?_⟩
    · rw [purge_expired_trash_trash_events]
      refine List.mem_filter.mpr ⟨ht, ?_⟩
      simp only [Bool.not_eq_true', ← Bool.not_eq_true]
      intro hc
      exact hnot (List.mem_of_elem_eq_true hc)
    · intro e he heid
      rw [purge_expired_trash_events]
      refine List.mem_filter.mpr ⟨he, ?_⟩
      simp only [Bool.not_eq_true', ← Bool.not_eq_true]
      intro hc
      rw [heid] at hc
      exact hnot (List.mem_of_elem_eq_true hc)

/-- Witness for C6 (amended) at a store holding an expired entry for `"e1"`
and an unexpired one for `"e2"`. -/
theorem c6_purge_expired_trash_amended_witness :
    (∀ m ∈ ([] : List DeletionMarker),
        m ∈ ((Db.mk [⟨"e1", "p1", 1, 1059, [], "c1"⟩,
          ⟨"e2", "p2", 2, 1059, [], "c2"⟩] [] [⟨"e1", 5⟩, ⟨"e2", 50⟩] []
            []).purge_expired_trash 10).1.deleted_events) ∧
      (∀ t ∈ [(⟨"e1", 5⟩ : TrashEntry), ⟨"e2", 50⟩], t.purge_after ≤ 10 →
        ((∀ m ∈ ([] : List DeletionMarker), m.event_id ≠ t.event_id) →
          (⟨t.event_id, none, none⟩ : DeletionMarker) ∈
            ((Db.mk [⟨"e1", "p1", 1, 1059, [], "c1"⟩,
              ⟨"e2", "p2", 2, 1059, [], "c2"⟩] [] [⟨"e1", 5⟩, ⟨"e2", 50⟩] []
                []).purge_expired_trash 10).1.deleted_events) ∧
          (∀ e ∈ ((Db.mk [⟨"e1", "p1", 1, 1059, [], "c1"⟩,
              ⟨"e2", "p2", 2, 1059, [], "c2"⟩] [] [⟨"e1", 5⟩, ⟨"e2", 50⟩] []
                []).purge_expired_trash 10).1.events, e.id ≠ t.event_id) ∧
          (∀ u ∈ ((Db.mk [⟨"e1", "p1", 1, 1059, [], "c1"⟩,
              ⟨"e2", "p2", 2, 1059, [], "c2"⟩] [] [⟨"e1", 5⟩, ⟨"e2", 50⟩] []
                []).purge_expired_trash 10).1.trash_events,
            u.event_id ≠ t.event_id)) ∧
      (∀ t ∈ [(⟨"e1", 5⟩ : TrashEntry), ⟨"e2", 50⟩], (10 : Int) < t.purge_after →
        t ∈ ((Db.mk [⟨"e1", "p1", 1, 1059, [], "c1"⟩,
          ⟨"e2", "p2", 2, 1059, [], "c2"⟩] [] [⟨"e1", 5⟩, ⟨"e2", 50⟩] []
            []).purge_expired_trash 10).1.trash_events ∧
          ∀ e ∈ [(⟨"e1", "p1", 1, 1059, [], "c1"⟩ : StoredEvent),
              ⟨"e2", "p2", 2, 1059, [], "c2"⟩], e.id = t.event_id →
            e ∈ ((Db.mk [⟨"e1", "p1", 1, 1059, [], "c1"⟩,
              ⟨"e2", "p2", 2, 1059, [], "c2"⟩] [] [⟨"e1", 5⟩, ⟨"e2", 50⟩] []
                []).purge_expired_trash 10).1.events) :=
  c6_purge_expired_trash_amended
    (Db.mk [⟨"e1", "p1", 1, 1059, [], "c1"⟩, ⟨"e2", "p2", 2, 1059, [], "c2"⟩]
      [] [⟨"e1", 5⟩, ⟨"e2", 50⟩] [] []) 10 (by decide)

theorem apply_deletion_trash_events (db : Db) (event_ids : List String)
    (author : Option String) (src : Option String) :
    (db.apply_deletion event_ids author src).trash_events =
      db.trash_events.filter (fun t =>
        !(db.deletableIds event_ids author).contains t.event_id) := rfl

/-- C7: applying a deletion request (the spec-modelled handler
`Db::apply_deletion`, which runs the source's `record_deletions` and then
`delete_from_trash` on the deleted ids) removes any trash entry for every
target id that the request deletes — deletion supersedes trashing. -/
theorem c7_deletion_supersedes_trash (db : Db) (targets : List String)
    (author : Option String) (src : Option String) (x : String)
    (hx : x ∈ db.deletableIds targets author) :
    ∀ u ∈ (db.apply_deletion targets author src).trash_events,
      u.event_id ≠ x := by
  intro u hu heq
  rw [apply_deletion_trash_events] at hu
  have hpred := (List.mem_filter.mp hu).2
  rw [heq] at hpred
  simp [List.elem_eq_true_of_mem hx] at hpred
  exact hpred hx

/-- Witness for C7: deleting the stored, trashed record `"x"` removes its
trash entry, leaving the trash table empty. -/
theorem c7_deletion_supersedes_trash_witness :
    (((Db.mk [⟨"x", "P", 1, 1059, [], "b"⟩] [] [⟨"x", 99⟩] []
        []).apply_deletion ["x"] none (some "d1")).trash_events) = [] := by
  have h := c7_deletion_supersedes_trash
    (Db.mk [⟨"x", "P", 1, 1059, [], "b"⟩] [] [⟨"x", 99⟩] [] [])
    ["x"] none (some "d1") "x" (by decide)
  revert h
  decide

theorem hasSubjectTag_iff (e : StoredEvent) :
    hasSubjectTag e = true ↔ ∃ tag ∈ e.tags, ∃ rest, tag = "subject" :: rest := by
  unfold hasSubjectTag
  rw [List.any_eq_true]
  constructor
  · rintro ⟨tag, htag, hp⟩
    rcases tag with _ | ⟨t0, rest⟩
    · simp at hp
    · have ht0 : t0 = "subject" := by simpa using hp
      exact ⟨t0 :: rest, htag, rest, by rw [ht0]⟩
  · rintro ⟨tag, htag, rest, rfl⟩
    exact ⟨"subject" :: rest, htag, by simp⟩

theorem rowDeleted_iff (db : Db) (e : StoredEvent) :
    rowDeleted db e = true ↔
      ∃ m ∈ db.deleted_events, m.event_id = e.id ∧
        (m.author_pubkey = none ∨ m.author_pubkey = some e.pubkey) := by
  unfold rowDeleted
  rw [List.any_eq_true]
  constructor
  · rintro ⟨m, hm, hp⟩
    rw [Bool.and_eq_true, Bool.or_eq_true] at hp
    refine ⟨m, hm, by simpa using hp.1, ?_⟩
    rcases hp.2 with h | h
    · exact Or.inl (by simpa using h)
    · exact Or.inr (by simpa using h)
  · rintro ⟨m, hm, h1, h2⟩
    refine ⟨m, hm, ?_⟩
    rcases h2 with h2 | h2 <;> simp [h1, h2]

theorem is_trashed_iff (db : Db) (x : String) :
    db.is_trashed x = true ↔ ∃ t ∈ db.trash_events, t.event_id = x := by
  unfold Db.is_trashed
  rw [List.any_eq_true]
  simp

theorem mem_eTagTargets (e : StoredEvent) (target : String) :
    target ∈ eTagTargets e ↔
      ∃ tag ∈ e.tags, ∃ rest, tag = "e" :: target :: rest := by
  unfold eTagTargets
  rw [List.mem_filterMap]
  constructor
  · rintro ⟨tag, htag, hsome⟩
    rcases tag with _ | ⟨t0, _ | ⟨t1, rest⟩⟩
    · simp [eTagTarget] at hsome
    · simp [eTagTarget] at hsome
    · by_cases ht0 : t0 = "e"
      · subst ht0
        have ht1 : t1 = target := by simpa [eTagTarget] using hsome
        exact ⟨"e" :: t1 :: rest, htag, rest, by rw [ht1]⟩
      · exact absurd hsome (by simp [eTagTarget, ht0])
  · rintro ⟨tag, htag, rest, rfl⟩
    exact ⟨"e" :: target :: rest, htag, by simp [eTagTarget]⟩

theorem isRoot_iff (db : Db) (e : StoredEvent) :
    isRoot db e = true ↔
      (∃ tag ∈ e.tags, ∃ rest, tag = "subject" :: rest) ∧
        ¬(∃ m ∈ db.deleted_events, m.event_id = e.id ∧
          (m.author_pubkey = none ∨ m.author_pubkey = some e.pubkey)) ∧
        ¬(∃ t ∈ db.trash_events, t.event_id = e.id) ∧
        (∀ tag ∈ e.tags, ∀ target rest, tag = "e" :: target :: rest →
          ∀ p ∈ db.events, p.id ≠ target) := by
  unfold isRoot
  simp only [Bool.and_eq_true, Bool.not_eq_true']
  constructor
  · rintro ⟨⟨⟨hs, hdel⟩, htr⟩, hpar⟩
    refine ⟨(hasSubjectTag_iff e).mp hs, ?_, ?_, ?_⟩
    · rw [← rowDeleted_iff db e]
      simp [hdel]
    · rw [← is_trashed_iff db e.id]
      simp [htr]
    · intro tag htag target rest heq p hp hpt
      have hmem : target ∈ eTagTargets e :=
        (mem_eTagTargets e target).mpr ⟨tag, htag, rest, heq⟩
      have hnone := List.any_eq_false.mp hpar target hmem
      exact hnone (List.any_eq_true.mpr ⟨p, hp, by simp [hpt]⟩)
  · rintro ⟨hs, hdel, htr, hpar⟩
    refine ⟨⟨⟨(hasSubjectTag_iff e).mpr hs, ?_⟩, ?_⟩, ?_⟩
    · cases hval : rowDeleted db e
      · rfl
      · exact absurd ((rowDeleted_iff db e).mp hval) hdel
    · cases hval : db.is_trashed e.id
      · rfl
      · exact absurd ((is_trashed_iff db e.id).mp hval) htr
    · rw [List.any_eq_false]
      intro target hmem hany
      obtain ⟨tag, htag, rest, heq⟩ := (mem_eTagTargets e target).mp hmem
      obtain ⟨p, hp, hpt⟩ := List.any_eq_true.mp hany
      exact hpar tag htag target rest heq p hp (by simpa using hpt)

/-- The store used to refute C8: parent `"p"` is trashed (its row is still in
the `events` table), reply `"r"` carries a subject tag and an e-tag
referencing `"p"`. -/
def c8Db : Db :=
  Db.mk
    [⟨"p", "pp", 1, 1059, [["subject", "s"]], "parent"⟩,
      ⟨"r", "pr", 2, 1059, [["subject", "s"], ["e", "p"]], "reply"⟩]
    [] [⟨"p", 100⟩] [] []

/-- C8 counterexample: `"r"` is stored, subject-tagged, not deleted, not
trashed, and its only referenced parent `"p"` is currently trashed — yet the
top-level listing is empty: `"r"` does not appear as a root, because the
roots query only checks that the referenced id is present in the `events`
table, and a trashed parent still is. -/
theorem c8_roots_counterexample :
    (⟨"r", "pr", 2, 1059, [["subject", "s"], ["e", "p"]], "reply"⟩ :
        StoredEvent) ∈ c8Db.events ∧
      hasSubjectTag ⟨"r", "pr", 2, 1059, [["subject", "s"], ["e", "p"]], "reply"⟩
        = true ∧
      eTagTargets ⟨"r", "pr", 2, 1059, [["subject", "s"], ["e", "p"]], "reply"⟩
        = ["p"] ∧
      c8Db.is_trashed "p" = true ∧ c8Db.is_trashed "r" = false ∧
      rowDeleted c8Db ⟨"r", "pr", 2, 1059, [["subject", "s"], ["e", "p"]], "reply"⟩
        = false ∧
      c8Db.topLevelIds = [] := by decide

/-- C8 (amended): the top-level listing contains exactly the stored records
that are themselves neither deleted nor trashed, carry a subject tag, and
have no reference tag pointing at an id still present in the `events` table;
deleted parents are physically removed from that table, so a reply whose
only parent was deleted appears as a root, while a merely trashed parent
remains in the table and keeps its replies out of the listing. -/
theorem c8_roots_characterization (db : Db) (x : String) :
    x ∈ db.topLevelIds ↔
      ∃ e ∈ db.events, e.id = x ∧
        (∃ tag ∈ e.tags, ∃ rest, tag = "subject" :: rest) ∧
        ¬(∃ m ∈ db.deleted_events, m.event_id = e.id ∧
          (m.author_pubkey = none ∨ m.author_pubkey = some e.pubkey)) ∧
        ¬(∃ t ∈ db.trash_events, t.event_id = e.id) ∧
        (∀ tag ∈ e.tags, ∀ target rest, tag = "e" :: target :: rest →
          ∀ p ∈ db.events, p.id ≠ target) := by
  unfold Db.topLevelIds
  rw [List.mem_map]
  constructor
  · rintro ⟨e, hef, rfl⟩
    obtain ⟨he, hr⟩ := List.mem_filter.mp hef
    exact ⟨e, he, rfl, (isRoot_iff db e).mp hr⟩
  · rintro ⟨e, he, rfl, hprops⟩
    exact ⟨e, List.mem_filter.mpr ⟨he, (isRoot_iff db e).mpr hprops⟩, rfl⟩

/-! The thread CTE only reads the `id` and `tags` columns of the event rows
(plus the lifecycle tables); when nothing is deleted or trashed, the member
computation factors through the projection to `(id, tags)` pairs, which lets
the closure be evaluated even when the other row fields are arbitrary. -/

/-- The `(id, tags)` projection of an event row. -/
def idTags (e : StoredEvent) : String × List (List String) := (e.id, e.tags)

/-- `threadStepIds` on `(id, tags)` pairs. -/
def threadStepIdsPure (evs : List (String × List (List String)))
    (cur : List String) : List String :=
  let replies := evs.filter (fun e =>
    (e.2.filterMap eTagTarget).any (fun t => cur.contains t))
  let parentTargets := (evs.filter (fun e => cur.contains e.1)).flatMap
    (fun e => e.2.filterMap eTagTarget)
  let parents := evs.filter (fun e => parentTargets.contains e.1)
  ((replies ++ parents).map (fun e => e.1)).foldl
    (fun acc i => if acc.contains i then acc else acc ++ [i]) cur

/-- `threadClosureIter` on `(id, tags)` pairs. -/
def threadClosureIterPure (evs : List (String × List (List String))) :
    Nat → List String → List String
  | 0, cur => cur
  | n + 1, cur => threadClosureIterPure evs n (threadStepIdsPure evs cur)

/-- `threadClosure` on `(id, tags)` pairs. -/
def threadClosurePure (evs : List (String × List (List String))) (fuel : Nat)
    (event_id : String) : List String :=
  threadClosureIterPure evs fuel
    ((evs.filter (fun e => e.1 == event_id)).map (fun e => e.1))

theorem filter_map_idTags (l : List StoredEvent)
    (P : String → List (List String) → Bool) :
    (l.map idTags).filter (fun pr => P pr.1 pr.2) =
      (l.filter (fun e => P e.id e.tags)).map idTags := by
  induction l with
  | nil => rfl
  | cons a t ih =>
    simp only [List.map_cons, List.filter_cons]
    cases h : P a.id a.tags
    · simpa [idTags, h] using ih
    · simpa [idTags, h] using ih

theorem flatMap_idTags_eTags (l : List StoredEvent) :
    (l.map idTags).flatMap (fun pr => pr.2.filterMap eTagTarget) =
      l.flatMap eTagTargets := by
  induction l with
  | nil => rfl
  | cons a t ih => simp [idTags, eTagTargets, ih]

theorem rowDeleted_of_empty (db : Db) (h : db.deleted_events = [])
    (e : StoredEvent) : rowDeleted db e = false := by
  simp [rowDeleted, h]

theorem is_trashed_of_empty (db : Db) (h : db.trash_events = [])
    (x : String) : db.is_trashed x = false := by
  simp [Db.is_trashed, h]

/-- With nothing deleted and nothing trashed, one CTE round is the pure
round on the `(id, tags)` projection of the event rows. -/
theorem threadStepIds_eq_pure (db : Db) (excl : Bool) (cur : List String)
    (h1 : db.deleted_events = []) (h2 : db.trash_events = []) :
    threadStepIds db excl cur =
      threadStepIdsPure (db.events.map idTags) cur := by
  unfold threadStepIds threadStepIdsPure
  simp only [rowDeleted_of_empty db h1, is_trashed_of_empty db h2,
    Bool.not_false, Bool.or_true, Bool.true_and]
  have hmem : (db.events.map idTags).filter (fun pr => cur.contains pr.1) =
      (db.events.filter (fun e => cur.contains e.id)).map idTags :=
    filter_map_idTags db.events (fun i _ => cur.contains i)
  have hrep : (db.events.map idTags).filter
      (fun pr => (pr.2.filterMap eTagTarget).any (fun t => cur.contains t)) =
      (db.events.filter (fun e =>
        (eTagTargets e).any (fun t => cur.contains t))).map idTags :=
    filter_map_idTags db.events
      (fun _ tg => (tg.filterMap eTagTarget).any (fun t => cur.contains t))
  rw [hmem, hrep, flatMap_idTags_eTags]
  have hpar : (db.events.map idTags).filter (fun pr =>
      (((db.events.filter (fun e => cur.contains e.id)).flatMap
        eTagTargets)).contains pr.1) =
      (db.events.filter (fun e =>
        (((db.events.filter (fun e => cur.contains e.id)).flatMap
          eTagTargets)).contains e.id)).map idTags :=
    filter_map_idTags db.events (fun i _ =>
      (((db.events.filter (fun e => cur.contains e.id)).flatMap
        eTagTargets)).contains i)
  rw [hpar, ← List.map_append, List.map_map]
  rfl

theorem threadClosureIter_eq_pure (db : Db) (excl : Bool)
    (h1 : db.deleted_events = []) (h2 : db.trash_events = []) :
    ∀ (fuel : Nat) (cur : List String),
      threadClosureIter db excl fuel cur =
        threadClosureIterPure (db.events.map idTags) fuel cur
  | 0, _ => rfl
  | n + 1, cur => by
    unfold threadClosureIter threadClosureIterPure
    rw [threadStepIds_eq_pure db excl cur h1 h2]
    exact threadClosureIter_eq_pure db excl h1 h2 n _

/-- With nothing deleted and nothing trashed, the thread closure is the pure
closure on the `(id, tags)` projection of the event rows. -/
theorem threadClosure_eq_pure (db : Db) (excl : Bool) (x : String)
    (h1 : db.deleted_events = []) (h2 : db.trash_events = []) :
    threadClosure db excl x =
      threadClosurePure (db.events.map idTags) db.events.length x := by
  unfold threadClosure threadClosurePure
  simp only [rowDeleted_of_empty db h1, is_trashed_of_empty db h2,
    Bool.not_false, Bool.or_true, Bool.and_true]
  have hseed : (db.events.map idTags).filter (fun pr => pr.1 == x) =
      (db.events.filter (fun e => e.id == x)).map idTags :=
    filter_map_idTags db.events (fun i _ => i == x)
  rw [hseed, List.map_map]
  have : (db.events.filter (fun e => e.id == x)).map
      ((fun pr : String × List (List String) => pr.1) ∘ idTags) =
      (db.events.filter (fun e => e.id == x)).map (fun e => e.id) := rfl
  rw [this]
  exact threadClosureIter_eq_pure db excl h1 h2 _ _

/-- Record `A` of the C2 conversation: the subject-tagged root, id `"a"`. -/
def c2A (pa : String) (ta : Nat) (ca : String) : StoredEvent :=
  ⟨"a", pa, ta, 1059, [["subject", "s"]], ca⟩

/-- Record `B`: a reply referencing `A`, id `"b"`. -/
def c2B (pb : String) (tb : Nat) (cb : String) : StoredEvent :=
  ⟨"b", pb, tb, 1059, [["e", "a"]], cb⟩

/-- Record `C`: a reply referencing `B`, id `"c"`. -/
def c2C (pc : String) (tc : Nat) (cc : String) : StoredEvent :=
  ⟨"c", pc, tc, 1059, [["e", "b"]], cc⟩

/-- Record `D`: a reply referencing `A`, id `"d"`. -/
def c2D (pd : String) (td : Nat) (cd : String) : StoredEvent :=
  ⟨"d", pd, td, 1059, [["e", "a"]], cd⟩

/-- The C2 store: exactly the records A, B, C and D, none deleted or
trashed; authors, timestamps and contents arbitrary. -/
def c2Db (pa pb pc pd : String) (ta tb tc td : Nat)
    (ca cb cc cd : String) : Db :=
  Db.mk [c2A pa ta ca, c2B pb tb cb, c2C pc tc cc, c2D pd td cd] [] [] [] []

/-- C2 counterexample: at the concrete instance with timestamps 1, 2, 3, 4,
the thread query started at `C` returns `{A, B, C, D}` — it contains `D`,
which the claim excludes — and the query started at `D` returns
`{A, B, C, D}` rather than `{A, D}`: the recursive CTE walks replies forward
from every member, so `D` (a reply to `A`) always joins. -/
theorem c2_thread_counterexample :
    ((c2Db "pa" "pb" "pc" "pd" 1 2 3 4 "ca" "cb" "cc" "cd").get_email_thread
        "c").map (fun e => e.id) = ["a", "b", "c", "d"] ∧
      ((c2Db "pa" "pb" "pc" "pd" 1 2 3 4 "ca" "cb" "cc" "cd").get_email_thread
        "d").map (fun e => e.id) = ["a", "b", "c", "d"] := by decide

/-- C2 (amended): with stored records A (root), B (reply to A), C (reply to
B), D (reply to A), none deleted or trashed, the single-thread query started
at C returns exactly the set `{A, B, C, D}` ordered by `created_at`
ascending (the closure includes D because the replies branch walks forward
from A), and started at D it likewise returns exactly `{A, B, C, D}`. -/
theorem c2_thread_closure_amended (pa pb pc pd : String) (ta tb tc td : Nat)
    (ca cb cc cd : String) :
    List.Perm
        ((c2Db pa pb pc pd ta tb tc td ca cb cc cd).get_email_thread "c")
        [c2A pa ta ca, c2B pb tb cb, c2C pc tc cc, c2D pd td cd] ∧
      List.Sorted byCreatedAt
        ((c2Db pa pb pc pd ta tb tc td ca cb cc cd).get_email_thread "c") ∧
      List.Perm
        ((c2Db pa pb pc pd ta tb tc td ca cb cc cd).get_email_thread "d")
        [c2A pa ta ca, c2B pb tb cb, c2C pc tc cc, c2D pd td cd] ∧
      List.Sorted byCreatedAt
        ((c2Db pa pb pc pd ta tb tc td ca cb cc cd).get_email_thread "d") := by
  have hmap : (c2Db pa pb pc pd ta tb tc td ca cb cc cd).events.map idTags =
      [("a", [["subject", "s"]]), ("b", [["e", "a"]]),
        ("c", [["e", "b"]]), ("d", [["e", "a"]])] := rfl
  have hlen : (c2Db pa pb pc pd ta tb tc td ca cb cc cd).events.length = 4 := rfl
  have hclosc : threadClosure (c2Db pa pb pc pd ta tb tc td ca cb cc cd)
      true "c" = ["c", "b", "a", "d"] := by
    rw [threadClosure_eq_pure _ _ _ rfl rfl, hmap, hlen]
    decide
  have hclosd : threadClosure (c2Db pa pb pc pd ta tb tc td ca cb cc cd)
      true "d" = ["d", "a", "b", "c"] := by
    rw [threadClosure_eq_pure _ _ _ rfl rfl, hmap, hlen]
    decide
  have hfc : (c2Db pa pb pc pd ta tb tc td ca cb cc cd).get_email_thread "c" =
      List.insertionSort byCreatedAt
        [c2A pa ta ca, c2B pb tb cb, c2C pc tc cc, c2D pd td cd] := by
    show List.insertionSort byCreatedAt
        ((c2Db pa pb pc pd ta tb tc td ca cb cc cd).events.filter
          (fun e => (threadClosure (c2Db pa pb pc pd ta tb tc td ca cb cc cd)
            true "c").contains e.id)) = _
    rw [hclosc]
    rfl
  have hfd : (c2Db pa pb pc pd ta tb tc td ca cb cc cd).get_email_thread "d" =
      List.insertionSort byCreatedAt
        [c2A pa ta ca, c2B pb tb cb, c2C pc tc cc, c2D pd td cd] := by
    show List.insertionSort byCreatedAt
        ((c2Db pa pb pc pd ta tb tc td ca cb cc cd).events.filter
          (fun e => (threadClosure (c2Db pa pb pc pd ta tb tc td ca cb cc cd)
            true "d").contains e.id)) = _
    rw [hclosd]
    rfl
  refine ⟨?_, ?_, ?_, ?_⟩
  · rw [hfc]
    exact List.perm_insertionSort byCreatedAt _
  · rw [hfc]
    exact List.sorted_insertionSort byCreatedAt _
  · rw [hfd]
    exact List.perm_insertionSort byCreatedAt _
  · rw [hfd]
    exact List.sorted_insertionSort byCreatedAt _

end Hoot
